import Mathlib

/-!
Shallow embedding of `src/pymc/PyMCObjects.py` (dependency-graph core of a
probabilistic modelling engine): the closure functions `extend_children` /
`extend_parents`, the `ParentDict` parent-binding map, the `Stochastic`
value/logp contracts, the `Potential` logp contract, and the Markov-blanket
relations.  Machine payloads (numpy arrays of numbers) are modelled as
`List Int`; log-probabilities as `ℚ`; Python attribute errors and raised
exceptions as `Except` results.
-/

namespace PyMC

/-! ### Node kinds and references

Graph nodes are identified by natural numbers; their class is given by a
kind map.  `Variable` instances are Stochastics and Deterministics;
`PotentialBase` instances are neither `Variable` nor `ContainerBase`.  A
parent reference is either a node (of any kind, containers included) or a
plain constant. -/

inductive NKind
  | stoch
  | dtrm
  | potential
  | container
  deriving DecidableEq

inductive Ref
  | node (n : Nat)
  | const (k : Int)
  deriving DecidableEq

/-- Static structure of the graph: the class of each node and, for
container nodes, the flattened member sets the `Container` collaborator
exposes (`variables`, `stochastics`, `deterministics`). -/
structure GraphStatic where
  kind : Nat → NKind
  cVariables : Nat → Finset Nat
  cStochastics : Nat → Finset Nat
  cDeterministics : Nat → Finset Nat

/-- Mutable relation state: each node's `children` set, each density-bearing
node's `extended_children` set, and each node's `extended_parents`
attribute (a set of parent references, as produced by `extend_parents`). -/
structure World where
  children : Nat → Finset Nat
  extended_children : Nat → Finset Nat
  extended_parents : Nat → Finset Ref

/-- Python `isinstance(x, Variable)`: Stochastics and Deterministics. -/
def isVariableKind (k : NKind) : Bool :=
  k == .stoch || k == .dtrm

def refIsVariable (g : GraphStatic) : Ref → Bool
  | .node n => isVariableKind (g.kind n)
  | .const _ => false

def refIsContainer (g : GraphStatic) : Ref → Bool
  | .node n => g.kind n == .container
  | .const _ => false

/-- Python `isinstance(self.owner, StochasticBase) or isinstance(self.owner,
PotentialBase)` (`ParentDict.__init__`, lines 89-92). -/
def has_logp (g : GraphStatic) (owner : Nat) : Bool :=
  g.kind owner == .stoch || g.kind owner == .potential

/-! ### `extend_parents` (lines 41-65) -/

/-- The body of `extend_parents`' loop: each parent reference is first
added to the accumulator; a `DeterministicBase` parent is then removed
again and its own `extended_parents` unioned in; a `ContainerBase` parent
additionally contributes its `stochastics` members and the
`extended_parents` sets of its `deterministics` members (the container
itself, added first, is never removed). -/
def extend_parents_loop (g : GraphStatic) (w : World) :
    List Ref → Finset Ref → Finset Ref
  | [], acc => acc
  | r :: rest, acc =>
    let acc1 := insert r acc
    let acc2 :=
      match r with
      | .node n =>
        if g.kind n = .dtrm then acc1.erase r ∪ w.extended_parents n
        else if g.kind n = .container then
          acc1 ∪ (g.cStochastics n).image Ref.node ∪
            (g.cDeterministics n).biUnion w.extended_parents
        else acc1
      | .const _ => acc1
    extend_parents_loop g w rest acc2

def extend_parents (g : GraphStatic) (w : World) (parents : List Ref) :
    Finset Ref :=
  extend_parents_loop g w parents ∅

/-- Modelled from the spec: `DictContainer.variables` is supplied by the
`Container` collaborator (`Container.py` is not part of this repository's
sources); per spec §6 a container "exposes `variables` (flattened set of
contained Variables)".  For the parent binding map this is the flattened
list of Variables among the currently stored values: a Stochastic or
Deterministic value contributes itself, a container value contributes its
flattened `variables` members, constants and Potentials contribute
nothing. -/
def dict_variables (g : GraphStatic) (entries : List (String × Ref)) :
    List Ref :=
  entries.foldr
    (fun kv acc =>
      match kv.2 with
      | .node n =>
        if isVariableKind (g.kind n) then .node n :: acc
        else if g.kind n = .container then
          ((g.cVariables n).sort (· ≤ ·)).map Ref.node ++ acc
        else acc
      | .const _ => acc) []

/-! ### `extend_children` (lines 17-39)

The Python recursion terminates on acyclic graphs because deterministic
chains are finite; the embedding makes the recursion depth explicit as
fuel, and the theorems assume a rank function that certifies acyclicity
and enough fuel. -/

def extend_children (g : GraphStatic) (w : World) :
    Nat → Finset Nat → Finset Nat
  | 0, s => s
  | fuel + 1, s =>
    let dtrmChildren := s.filter (fun n => g.kind n = .dtrm)
    if dtrmChildren = ∅ then s
    else
      extend_children g w fuel
        ((s ∪ dtrmChildren.biUnion w.children) \ dtrmChildren)

/-- Nodes reachable from the seed set by repeatedly stepping from a
Deterministic member to one of its children — the descendants
`extend_children` may visit. -/
inductive DtrmReach (g : GraphStatic) (w : World) (s : Finset Nat) :
    Nat → Prop
  | base {n : Nat} : n ∈ s → DtrmReach g w s n
  | step {p c : Nat} : DtrmReach g w s p → g.kind p = .dtrm →
      c ∈ w.children p → DtrmReach g w s c

/-! ### `ParentDict` state and operations (lines 68-177) -/

/-- A parent binding map `ParentDict`: its owner node and the stored key → reference
mapping (keys are unique). -/
structure PD where
  owner : Nat
  entries : List (String × Ref)

def lookupKey (entries : List (String × Ref)) (key : String) : Option Ref :=
  match entries.find? (fun kv => kv.1 == key) with
  | some kv => some kv.2
  | none => none

/-- Python `sum([parent is x for parent in self.itervalues()])`: how many stored
values are (by identity) the reference `r`. -/
def countRefs (entries : List (String × Ref)) (r : Ref) : Nat :=
  (entries.filter (fun kv => kv.2 == r)).length

/-- Point update of a node's `children` set. -/
def updChildren (w : World) (n : Nat) (f : Finset Nat → Finset Nat) :
    World :=
  { w with children := fun m => if m = n then f (w.children n) else w.children m }

/-- Mirrors `ParentDict.detach_extended_parents` (lines 106-109): every
`StochasticBase` member of the owner's `extended_parents` discards the
owner from its `extended_children`. -/
def detach_extended_parents (g : GraphStatic) (w : World) (owner : Nat) :
    World :=
  { w with extended_children := fun m =>
      if g.kind m = .stoch ∧ Ref.node m ∈ w.extended_parents owner then
        (w.extended_children m).erase owner
      else w.extended_children m }

/-- Mirrors `ParentDict.attach_extended_parents` (lines 123-126). -/
def attach_extended_parents (g : GraphStatic) (w : World) (owner : Nat) :
    World :=
  { w with extended_children := fun m =>
      if g.kind m = .stoch ∧ Ref.node m ∈ w.extended_parents owner then
        insert owner (w.extended_children m)
      else w.extended_children m }

/-- The loop of `ParentDict.detach_parents` (lines 94-100): a `Variable`
value discards the owner from its `children`; a `ContainerBase` value's
loop accesses the misspelled attribute `variable.chidren` (line 100), which
raises `AttributeError` as soon as the container has a member. -/
def detach_parents_loop (g : GraphStatic) (owner : Nat) :
    List (String × Ref) → World → Except Unit World
  | [], w => .ok w
  | kv :: rest, w =>
    match kv.2 with
    | .node n =>
      if isVariableKind (g.kind n) then
        detach_parents_loop g owner rest
          (updChildren w n (fun s => s.erase owner))
      else if g.kind n = .container then
        if (g.cVariables n).Nonempty then .error ()
        else detach_parents_loop g owner rest w
      else detach_parents_loop g owner rest w
    | .const _ => detach_parents_loop g owner rest w

/-- Mirrors `ParentDict.detach_parents` (lines 94-103). -/
def detach_parents (g : GraphStatic) (w : World) (pd : PD) :
    Except Unit World :=
  match detach_parents_loop g pd.owner pd.entries w with
  | .error e => .error e
  | .ok w =>
    .ok (if has_logp g pd.owner then detach_extended_parents g w pd.owner
         else w)

/-- Mirrors `ParentDict.attach_parents` (lines 112-121): a `Variable` value's
`children` gains the owner; a `ContainerBase` value adds the owner to each
contained variable's `children` (here the attribute is spelled
correctly). -/
def attach_parents (g : GraphStatic) (w : World) (pd : PD) : World :=
  let w :=
    pd.entries.foldl
      (fun w kv =>
        match kv.2 with
        | .node n =>
          if isVariableKind (g.kind n) then
            updChildren w n (insert pd.owner)
          else if g.kind n = .container then
            { w with children := fun m =>
                if m ∈ g.cVariables n then insert pd.owner (w.children m)
                else w.children m }
          else w
        | .const _ => w) w
  if has_logp g pd.owner then attach_extended_parents g w pd.owner else w

/-- Mirrors `ParentDict.__setitem__` (lines 129-177), step by step:
1. look up the old reference (`KeyError` → `none` when the key is absent);
2. if it is a Variable or container: detach the owner from all current
   extended parents (when the owner is density-bearing), then remove the
   owner from the old parent's `children` when this key was the only value
   identical to it (line 144), per contained member for containers
   (lines 148-151, the membership count still checks only direct values);
3. if the new reference is a Variable, add the owner to its `children`
   (line 162); if it is a container, the loop body at line 166 adds the
   owner to `new_parent.children` — the children set of the container
   object itself, once per member, the loop variable being unused;
4. recompute `owner.extended_parents = extend_parents(self.variables)`
   (line 169) — the dict still holds the old reference at this point, the
   new binding is only stored afterwards (line 173) — and re-attach the
   owner to the extended parents just computed;
5. store the new binding.
`val_keys`/`nonval_keys` bookkeeping and `file_items` only maintain the
external `DictContainer` value cache and `gen_lazy_function` rebuilds the
external lazy evaluator; they do not touch the relation state modelled
here. -/
def setitem (g : GraphStatic) (w : World) (pd : PD) (key : String)
    (new_parent : Ref) : Option (World × PD) :=
  match lookupKey pd.entries key with
  | none => none
  | some old_parent =>
    let w :=
      if refIsVariable g old_parent || refIsContainer g old_parent then
        let w :=
          if has_logp g pd.owner then detach_extended_parents g w pd.owner
          else w
        match old_parent with
        | .node n =>
          if isVariableKind (g.kind n) then
            if countRefs pd.entries (.node n) == 1 then
              updChildren w n (fun s => s.erase pd.owner)
            else w
          else
            { w with children := fun m =>
                if m ∈ g.cVariables n ∧ countRefs pd.entries (.node m) == 1
                then (w.children m).erase pd.owner
                else w.children m }
        | .const _ => w
      else w
    let w :=
      match new_parent with
      | .node n =>
        if isVariableKind (g.kind n) then
          updChildren w n (insert pd.owner)
        else if g.kind n = .container then
          if (g.cVariables n).Nonempty then
            updChildren w n (insert pd.owner)
          else w
        else w
      | .const _ => w
    let newEP := extend_parents g w (dict_variables g pd.entries)
    let w :=
      { w with extended_parents := fun m =>
          if m = pd.owner then newEP else w.extended_parents m }
    let w :=
      if has_logp g pd.owner then attach_extended_parents g w pd.owner else w
    let newEntries :=
      pd.entries.map (fun kv => if kv.1 == key then (kv.1, new_parent) else kv)
    some (w, { pd with entries := newEntries })

/-! ### Markov-blanket relations (lines 686-704) -/

/-- Mirrors `Stochastic._get_coparents`: the union over the extended children of
their `extended_parents` sets, plus self. -/
def coparents (w : World) (x : Nat) : Finset Ref :=
  insert (Ref.node x) ((w.extended_children x).biUnion w.extended_parents)

def refIsPotential (g : GraphStatic) : Ref → Bool
  | .node n => g.kind n == .potential
  | .const _ => false

/-- Mirrors `Stochastic._get_moral_neighbors`: `coparents ∪ extended_parents ∪
extended_children`, with `PotentialBase` members removed. -/
def moral_neighbors (g : GraphStatic) (w : World) (x : Nat) : Finset Ref :=
  (coparents w x ∪ w.extended_parents x ∪
      (w.extended_children x).image Ref.node).filter
    (fun r => ¬refIsPotential g r)

/-- Mirrors `Stochastic._get_markov_blanket`: `moral_neighbors ∪ {self}`. -/
def markov_blanket (g : GraphStatic) (w : World) (x : Nat) : Finset Ref :=
  moral_neighbors g w x ∪ {Ref.node x}

/-! ### Stochastic value state (`Stochastic.set_value`, `Stochastic.revert`)

`Stochastic._value` is modelled as a `List Int` payload; `_missing` is
`none` when the missing-index detection (`gen_lazy_function`, lines
545-562) set `self._missing = None`, and `some idxs` when it recorded a
list of missing indices (possibly empty).  `last_value` is `none` while the
Python attribute does not exist yet (it is only ever created by
`set_value`, line 601). -/

structure SStoch where
  isdata : Bool
  missing : Option (List Nat)
  value : List Int
  last_value : Option (List Int)
  deriving DecidableEq

inductive SErr
  | dataFixed
  | attrError
  deriving DecidableEq

/-- Python `value[self._missing] = missing_values` (lines 593-595): starting from
`base` (a copy of the stored value), overwrite each index `i ∈ idxs` with
`newv.getD i 0` (the corresponding entry of the incoming value). -/
def write_indices (base newv : List Int) (idxs : List Nat) : List Int :=
  idxs.foldl (fun acc i => acc.set i (newv.getD i 0)) base

/-- Mirrors `Stochastic.set_value` (lines 584-621).  The `isdata` guard comes first:
with a truthy `_missing` list only the missing indices of the stored value
are overwritten, otherwise an `AttributeError` is raised before anything is
mutated.  On success the previous stored value object is saved into
`last_value` (no copy) and the new payload is stored.  The dtype-coercion
branches are identity on our `List Int` payloads (dtype matches), as in the
source's `self._value = value` arms. -/
def set_value (s : SStoch) (v : List Int) : Except SErr SStoch :=
  if s.isdata then
    match s.missing with
    | some idxs =>
      if idxs.isEmpty then .error .dataFixed
      else .ok { s with last_value := some s.value,
                        value := write_indices s.value v idxs }
    | none => .error .dataFixed
  else
    .ok { s with last_value := some s.value, value := v }

/-- Mirrors `Stochastic.revert` (lines 626-631): `self._value = self.last_value`,
with no coercion, validation or `isdata` check; raises `AttributeError`
when `last_value` was never created. -/
def revert (s : SStoch) : Except SErr SStoch :=
  match s.last_value with
  | none => .error .attrError
  | some lv => .ok { s with value := lv }

/-! ### logp validation (`Stochastic.get_logp`, `Potential.get_logp`)

The raw result of the lazy evaluator is either not castable to a float, or
a float, which is NaN or a finite number (modelled as a rational).  The
node's current value and its parents' current values, which only travel
into error messages here, are modelled as `Int` / `List Int` payloads. -/

inductive FloatRep
  | nan
  | fin (q : ℚ)
  deriving DecidableEq

inductive RawLogp
  | notCastable
  | ofFloat (x : FloatRep)
  deriving DecidableEq

/-- Constant `d_neg_inf = float(-1.79E308)` (line 12), the zero-probability
sentinel. -/
def d_neg_inf : ℚ := -(179 * 10 ^ 306)

inductive LogpError
  | typeError (name : String)
  | valueError (name : String)
  | zeroProbability (name : String) (value : Option Int) (parentVals : List Int)
  deriving DecidableEq

/-- Mirrors `Stochastic.get_logp` (lines 634-655): cast to float else `TypeError`;
`ValueError` on NaN; `ZeroProbability` (carrying name, current value and
parents' values) when at or below `d_neg_inf`; otherwise return the
float. -/
def stochastic_get_logp (name : String) (value : Int) (parentVals : List Int)
    (raw : RawLogp) : Except LogpError ℚ :=
  match raw with
  | .notCastable => .error (.typeError name)
  | .ofFloat .nan => .error (.valueError name)
  | .ofFloat (.fin q) =>
    if q ≤ d_neg_inf then
      .error (.zeroProbability name (some value) parentVals)
    else .ok q

/-- Mirrors `Potential.get_logp` (lines 259-278): same checks in the same order;
its `ZeroProbability` message carries the name and parents' values but no
own value. -/
def potential_get_logp (name : String) (parentVals : List Int)
    (raw : RawLogp) : Except LogpError ℚ :=
  match raw with
  | .notCastable => .error (.typeError name)
  | .ofFloat .nan => .error (.valueError name)
  | .ofFloat (.fin q) =>
    if q ≤ d_neg_inf then
      .error (.zeroProbability name none parentVals)
    else .ok q

/-- Drop the node's own value from a zero-probability message (the one
payload difference between the Stochastic and Potential checks). -/
def erase_value_payload : LogpError → LogpError
  | .zeroProbability name _ pv => .zeroProbability name none pv
  | e => e

def strip_value : Except LogpError ℚ → Except LogpError ℚ
  | .error e => .error (erase_value_payload e)
  | .ok q => .ok q

/-! ### Concrete instances used by counterexamples and witnesses -/

/-- A world with one container (node 0) holding one Stochastic member
(node 1). -/
def gC4 : GraphStatic where
  kind := fun n => if n = 0 then .container else .stoch
  cVariables := fun n => if n = 0 then {1} else ∅
  cStochastics := fun n => if n = 0 then {1} else ∅
  cDeterministics := fun _ => ∅

def wC4 : World where
  children := fun _ => ∅
  extended_children := fun _ => ∅
  extended_parents := fun _ => ∅

/-- A chain Stochastic 1, Deterministic 2 with child 3 (a Stochastic). -/
def gC5 : GraphStatic where
  kind := fun n => if n = 2 then .dtrm else .stoch
  cVariables := fun _ => ∅
  cStochastics := fun _ => ∅
  cDeterministics := fun _ => ∅

def wC5 : World where
  children := fun n => if n = 2 then {3} else ∅
  extended_children := fun _ => ∅
  extended_parents := fun _ => ∅

def rankC5 : Nat → Nat := fun n => if n = 2 then 1 else 0

/-- Stochastic owner 0 whose single parent key `"p"` is bound to
Stochastic 1; Stochastic 2 is the rebind target.  All relation sets are
consistently registered for the initial binding. -/
def gC1 : GraphStatic where
  kind := fun _ => .stoch
  cVariables := fun _ => ∅
  cStochastics := fun _ => ∅
  cDeterministics := fun _ => ∅

def wC1 : World where
  children := fun n => if n = 1 then {0} else ∅
  extended_children := fun n => if n = 1 then {0} else ∅
  extended_parents := fun n => if n = 0 then {Ref.node 1} else ∅

def pdC1 : PD where
  owner := 0
  entries := [("p", Ref.node 1)]

/-- Stochastic owner 0 bound at key `"p"` to Stochastic 3; node 1 is a
container holding Stochastic 2, the rebind target. -/
def gC2 : GraphStatic where
  kind := fun n => if n = 1 then .container else .stoch
  cVariables := fun n => if n = 1 then {2} else ∅
  cStochastics := fun n => if n = 1 then {2} else ∅
  cDeterministics := fun _ => ∅

def wC2 : World where
  children := fun n => if n = 3 then {0} else ∅
  extended_children := fun n => if n = 3 then {0} else ∅
  extended_parents := fun n => if n = 0 then {Ref.node 3} else ∅

def pdC2 : PD where
  owner := 0
  entries := [("p", Ref.node 3)]

/-- Stochastic owner 0 with a Variable parent (Stochastic 3) at key `"a"`
and a container parent (node 1, holding Stochastic 2) at key `"b"`. -/
def gC6 : GraphStatic where
  kind := fun n => if n = 1 then .container else .stoch
  cVariables := fun n => if n = 1 then {2} else ∅
  cStochastics := fun n => if n = 1 then {2} else ∅
  cDeterministics := fun _ => ∅

def wC6 : World where
  children := fun n => if n = 2 ∨ n = 3 then {0} else ∅
  extended_children := fun n => if n = 2 ∨ n = 3 then {0} else ∅
  extended_parents := fun n => if n = 0 then {Ref.node 2, Ref.node 3} else ∅

def pdC6 : PD where
  owner := 0
  entries := [("a", Ref.node 3), ("b", Ref.node 1)]

/-- Two Stochastics 0 and 1 with 0 an extended parent of 1 (and 1 an
extended child of 0), consistently registered. -/
def gC9 : GraphStatic where
  kind := fun _ => .stoch
  cVariables := fun _ => ∅
  cStochastics := fun _ => ∅
  cDeterministics := fun _ => ∅

def wC9 : World where
  children := fun _ => ∅
  extended_children := fun n => if n = 0 then {1} else ∅
  extended_parents := fun n => if n = 1 then {Ref.node 0} else ∅

/-! ## Theorems -/

theorem write_indices_length (newv : List Int) (idxs : List Nat) :
    ∀ base : List Int, (write_indices base newv idxs).length = base.length := by
  induction idxs with
  | nil => intro base; rfl
  | cons a rest ih =>
    intro base
    show (write_indices (base.set a (newv.getD a 0)) newv rest).length = _
    rw [ih, List.length_set]

theorem write_indices_not_mem (newv : List Int) (idxs : List Nat) :
    ∀ base : List Int, ∀ j : Nat, j ∉ idxs →
      (write_indices base newv idxs).getD j 0 = base.getD j 0 := by
  induction idxs with
  | nil => intro base j _; rfl
  | cons a rest ih =>
    intro base j hj
    have hja : j ≠ a := fun h => hj (h ▸ List.mem_cons_self a rest)
    have hjr : j ∉ rest := fun h => hj (List.mem_cons_of_mem a h)
    show (write_indices (base.set a (newv.getD a 0)) newv rest).getD j 0 = _
    rw [ih _ j hjr]
    simp [List.getD_eq_getElem?_getD, List.getElem?_set_ne (Ne.symm hja)]

theorem write_indices_mem (newv : List Int) (idxs : List Nat) :
    ∀ base : List Int, ∀ i : Nat, i ∈ idxs → i < base.length → i < newv.length →
      (write_indices base newv idxs).getD i 0 = newv.getD i 0 := by
  induction idxs with
  | nil => intro base i hi; exact absurd hi (List.not_mem_nil i)
  | cons a rest ih =>
    intro base i hi hb hv
    show (write_indices (base.set a (newv.getD a 0)) newv rest).getD i 0 = _
    by_cases hir : i ∈ rest
    · exact ih _ i hir (by rw [List.length_set]; exact hb) hv
    · rcases List.mem_cons.mp hi with hia | hia
      · subst hia
        rw [write_indices_not_mem newv rest _ i hir]
        simp [List.getD_eq_getElem?_getD, List.getElem?_set_self hb]
      · exact absurd hia hir

/-- Unfolding equation of `extend_children` at positive fuel. -/
theorem extend_children_succ (g : PyMC.GraphStatic) (w : PyMC.World)
    (f : Nat) (s : Finset Nat) :
    PyMC.extend_children g w (f + 1) s =
      if s.filter (fun n => g.kind n = .dtrm) = ∅ then s
      else
        PyMC.extend_children g w f
          ((s ∪ (s.filter (fun n => g.kind n = .dtrm)).biUnion w.children)
            \ s.filter (fun n => g.kind n = .dtrm)) := rfl

/-- On a set with no Deterministic member, `extend_children` is the
identity at every fuel. -/
theorem extend_children_fixed (g : PyMC.GraphStatic) (w : PyMC.World) :
    ∀ t : Finset Nat, (∀ n ∈ t, g.kind n ≠ .dtrm) →
      ∀ fuel2 : Nat, PyMC.extend_children g w fuel2 t = t := by
  intro t ht fuel2
  cases fuel2 with
  | zero => rfl
  | succ f =>
    rw [extend_children_succ]
    have hfe : t.filter (fun m => g.kind m = .dtrm) = ∅ :=
      Finset.filter_eq_empty_iff.mpr (fun m hm => ht m hm)
    rw [if_pos hfe]

/-- Under a rank function certifying that children of Deterministic nodes
have strictly smaller rank (a DAG certificate), and fuel at least the rank
bound of the seed's Deterministic members, `extend_children` returns a set
with no Deterministic member. -/
theorem extend_children_no_dtrm (g : PyMC.GraphStatic) (w : PyMC.World)
    (rank : Nat → Nat)
    (hrank : ∀ p c : Nat, g.kind p = .dtrm → c ∈ w.children p →
      rank c < rank p) :
    ∀ B fuel : Nat, ∀ s : Finset Nat,
      (∀ n ∈ s, g.kind n = .dtrm → rank n < B) → B ≤ fuel →
      ∀ n ∈ PyMC.extend_children g w fuel s, g.kind n ≠ .dtrm := by
  intro B
  induction B with
  | zero =>
    intro fuel s hs _ n hn hdn
    have hnod : ∀ m ∈ s, g.kind m ≠ .dtrm :=
      fun m hm hd => absurd (hs m hm hd) (Nat.not_lt_zero _)
    rw [extend_children_fixed g w s hnod fuel] at hn
    exact hnod n hn hdn
  | succ B ih =>
    intro fuel s hs hfuel n hn
    cases fuel with
    | zero => exact absurd hfuel (by omega)
    | succ f =>
      rw [extend_children_succ] at hn
      by_cases hfe : s.filter (fun n => g.kind n = .dtrm) = ∅
      · rw [if_pos hfe] at hn
        intro hdn
        have hmem : n ∈ s.filter (fun m => g.kind m = .dtrm) :=
          Finset.mem_filter.mpr ⟨hn, hdn⟩
        rw [hfe] at hmem
        exact absurd hmem (Finset.not_mem_empty n)
      · rw [if_neg hfe] at hn
        refine ih f _ ?_ (by omega) n hn
        intro m hm hdm
        rcases Finset.mem_sdiff.mp hm with ⟨hmu, hmn⟩
        rcases Finset.mem_union.mp hmu with hms | hmb
        · exact absurd (Finset.mem_filter.mpr ⟨hms, hdm⟩) hmn
        · rcases Finset.mem_biUnion.mp hmb with ⟨p, hp, hc⟩
          rcases Finset.mem_filter.mp hp with ⟨hps, hpd⟩
          have h1 := hrank p m hpd hc
          have h2 := hs p hps hpd
          omega

theorem dtrmReach_mono (g : PyMC.GraphStatic) (w : PyMC.World)
    (s t : Finset Nat) (ht : ∀ m ∈ t, PyMC.DtrmReach g w s m) :
    ∀ n : Nat, PyMC.DtrmReach g w t n → PyMC.DtrmReach g w s n := by
  intro n h
  induction h with
  | base hm => exact ht _ hm
  | step _ hd hc ih => exact PyMC.DtrmReach.step ih hd hc

/-- Every member of `extend_children`'s result is reachable from the seed
set through Deterministic nodes. -/
theorem extend_children_reach (g : PyMC.GraphStatic) (w : PyMC.World) :
    ∀ fuel : Nat, ∀ s : Finset Nat, ∀ n ∈ PyMC.extend_children g w fuel s,
      PyMC.DtrmReach g w s n := by
  intro fuel
  induction fuel with
  | zero => intro s n hn; exact PyMC.DtrmReach.base hn
  | succ f ih =>
    intro s n hn
    rw [extend_children_succ] at hn
    by_cases hfe : s.filter (fun n => g.kind n = .dtrm) = ∅
    · rw [if_pos hfe] at hn
      exact PyMC.DtrmReach.base hn
    · rw [if_neg hfe] at hn
      refine dtrmReach_mono g w s _ ?_ n (ih _ n hn)
      intro m hm
      rcases Finset.mem_sdiff.mp hm with ⟨hmu, _⟩
      rcases Finset.mem_union.mp hmu with hms | hmb
      · exact PyMC.DtrmReach.base hms
      · rcases Finset.mem_biUnion.mp hmb with ⟨p, hp, hc⟩
        rcases Finset.mem_filter.mp hp with ⟨hps, hpd⟩
        exact PyMC.DtrmReach.step (PyMC.DtrmReach.base hps) hpd hc

/-- C5: over an acyclic graph (certified by a rank function decreasing
along Deterministic-to-child edges) and with enough fuel for the recursion
the source performs, `extend_children` returns a set with no Deterministic
member, which is a fixed point of the replace-Deterministics-by-their-
children iteration (running it again, with any fuel, changes nothing), and
every member is a descendant of the seed set reached through Deterministic
nodes only. -/
theorem c5_extend_children (g : PyMC.GraphStatic) (w : PyMC.World)
    (s : Finset Nat) (rank : Nat → Nat) (B fuel : Nat)
    (hrank : ∀ p c : Nat, g.kind p = .dtrm → c ∈ w.children p →
      rank c < rank p)
    (hseed : ∀ n ∈ s, g.kind n = .dtrm → rank n < B)
    (hfuel : B ≤ fuel) :
    (∀ n ∈ PyMC.extend_children g w fuel s, g.kind n ≠ .dtrm)
    ∧ (∀ fuel2 : Nat,
        PyMC.extend_children g w fuel2 (PyMC.extend_children g w fuel s) =
          PyMC.extend_children g w fuel s)
    ∧ (∀ n ∈ PyMC.extend_children g w fuel s, PyMC.DtrmReach g w s n) := by
  have h1 := extend_children_no_dtrm g w rank hrank B fuel s hseed hfuel
  exact ⟨h1, extend_children_fixed g w _ h1,
    fun n hn => extend_children_reach g w fuel s n hn⟩

/-- Witness for C5: the chain `{Stochastic 1, Deterministic 2}` with
`2.children = {3}` collapses to `{1, 3}`: node 3 is not Deterministic, the
result is a fixed point, and 3 is reachable through Deterministic node
2. -/
theorem c5_extend_children_witness :
    PyMC.gC5.kind 3 ≠ .dtrm
    ∧ PyMC.extend_children PyMC.gC5 PyMC.wC5 5
        (PyMC.extend_children PyMC.gC5 PyMC.wC5 2 {1, 2}) =
        PyMC.extend_children PyMC.gC5 PyMC.wC5 2 {1, 2}
    ∧ PyMC.DtrmReach PyMC.gC5 PyMC.wC5 {1, 2} 3 := by
  have h := c5_extend_children PyMC.gC5 PyMC.wC5 {1, 2} PyMC.rankC5 2 2
    (by
      intro p c hp hc
      by_cases h2 : p = 2
      · subst h2
        have hc3 : c = 3 := by
          simpa [PyMC.wC5] using hc
        subst hc3
        simp [PyMC.rankC5]
      · exact absurd hp (by simp [PyMC.gC5, h2]))
    (by decide) (by decide)
  exact ⟨h.1 3 (by decide), h.2.1 5, h.2.2 3 (by decide)⟩

/-- Counterexample for C4: the claim says the container object itself does
not appear in `extend_parents`' result; on a container (node 0) holding one
Stochastic member (node 1), the source's unconditional
`new_parents.add(parent)` (line 52) is never undone in the `ContainerBase`
branch, so the result is `{container, member}` and contains the container
itself. -/
theorem c4_container_in_result :
    PyMC.gC4.kind 0 = .container
    ∧ Ref.node 0 ∈ PyMC.extend_parents PyMC.gC4 PyMC.wC4 [Ref.node 0]
    ∧ PyMC.extend_parents PyMC.gC4 PyMC.wC4 [Ref.node 0] =
        {Ref.node 0, Ref.node 1} := by
  refine ⟨rfl, ?_, ?_⟩ <;> decide

/-- C4 as amended: a container parent contributes the container object
itself, plus its directly density-bearing (`stochastics`) members, plus the
union of the `extended_parents` sets of its `deterministics` members. -/
theorem c4_container_contribution (g : PyMC.GraphStatic) (w : PyMC.World)
    (p : Nat) (h : g.kind p = .container) :
    PyMC.extend_parents g w [Ref.node p] =
      insert (Ref.node p)
        ((g.cStochastics p).image Ref.node ∪
          (g.cDeterministics p).biUnion w.extended_parents) := by
  show PyMC.extend_parents_loop g w [Ref.node p] ∅ = _
  simp only [PyMC.extend_parents_loop, h]
  simp [Finset.insert_union, Finset.insert_eq]

/-- Witness for C4's amended claim, at the concrete container of the
counterexample. -/
theorem c4_container_contribution_witness :
    PyMC.extend_parents PyMC.gC4 PyMC.wC4 [Ref.node 0] =
      insert (Ref.node 0)
        ((PyMC.gC4.cStochastics 0).image Ref.node ∪
          (PyMC.gC4.cDeterministics 0).biUnion PyMC.wC4.extended_parents) :=
  c4_container_contribution PyMC.gC4 PyMC.wC4 0 rfl

/-- C1 fails on the code: `__setitem__` recomputes
`owner.extended_parents = extend_parents(self.variables)` at line 169, but
the new binding is only stored at line 173 (and the container's `variables`
cache refreshed by `file_items` at line 174), so the recomputation reads
the pre-rebind binding set.  Concretely: rebinding owner 0's only parent
key from Stochastic 1 to Stochastic 2 leaves `extended_parents = {1}`,
whereas `extend_parents` over the post-rebind bindings yields `{2}`; the
stale set is also what gets re-attached into `extended_children` (node 1
regains owner 0, node 2 never receives it). -/
theorem c1_staleness_bug :
    (PyMC.setitem PyMC.gC1 PyMC.wC1 PyMC.pdC1 "p" (Ref.node 2)).map
        (fun x =>
          (decide (x.1.extended_parents 0 = {Ref.node 1}),
           decide (PyMC.extend_parents PyMC.gC1 x.1
              (PyMC.dict_variables PyMC.gC1 x.2.entries) = {Ref.node 2}),
           decide (x.1.extended_children 1 = {0} ∧
              x.1.extended_children 2 = ∅))) =
      some (true, true, true) := by
  decide

/-- C2 fails on the code: when the new reference is a container, the loop
at lines 164-166 executes `new_parent.children.add(self.owner)` — adding
the owner to the children set of the container object itself, the loop
variable ranging over the contained variables being unused — so the
contained Variables' `children` sets never gain the owner.  Concretely:
rebinding owner 0's parent from Stochastic 3 to container 1 (holding
Stochastic 2) removes 0 from node 3's children (that part matches the
claim) but leaves node 2's children empty while node 1's children gains
0. -/
theorem c2_container_children_bug :
    (PyMC.setitem PyMC.gC2 PyMC.wC2 PyMC.pdC2 "p" (Ref.node 1)).map
        (fun x =>
          (decide (0 ∉ x.1.children 2),
           decide (0 ∈ x.1.children 1),
           decide (0 ∉ x.1.children 3))) =
      some (true, true, true) := by
  decide

/-- C6 fails on the code: `detach_parents`' container branch accesses the
misspelled attribute `variable.chidren` (line 100), raising
`AttributeError` as soon as a container-valued parent has a member, instead
of discarding the owner from each contained variable's `children`
(`attach_parents` spells the attribute correctly at line 118 and performs
the symmetric additions).  Concretely: detaching owner 0 from bindings
`{a: Stochastic 3, b: container 1 (holding Stochastic 2)}` fails, while
attaching over the same bindings adds 0 to the children of both 3 and
2. -/
theorem c6_detach_typo_bug :
    PyMC.detach_parents PyMC.gC6 PyMC.wC6 PyMC.pdC6 = .error ()
    ∧ (0 ∈ (PyMC.attach_parents PyMC.gC6 PyMC.wC6 PyMC.pdC6).children 3
        ∧ 0 ∈ (PyMC.attach_parents PyMC.gC6 PyMC.wC6 PyMC.pdC6).children 2) := by
  exact ⟨rfl, by decide⟩

/-- C3: reading `logp` applies exactly these checks to the evaluator's raw
result, in this order: type-conversion error when not castable to float,
numeric-validity error on NaN, zero-probability error (carrying the node's
name, the Stochastic's current value, and the parents' values) at or below
the `d_neg_inf` sentinel, else the finite float is returned; and up to the
extra value payload in the zero-probability message the Stochastic and
Potential checks are identical. -/
theorem c3_logp_checks (name : String) (v : Int) (pv : List Int)
    (raw : PyMC.RawLogp) :
    PyMC.strip_value (PyMC.stochastic_get_logp name v pv raw) =
      PyMC.potential_get_logp name pv raw
    ∧ (raw = .notCastable →
        PyMC.stochastic_get_logp name v pv raw = .error (.typeError name))
    ∧ (raw = .ofFloat .nan →
        PyMC.stochastic_get_logp name v pv raw = .error (.valueError name))
    ∧ (∀ q : ℚ, raw = .ofFloat (.fin q) →
        (q ≤ PyMC.d_neg_inf →
          PyMC.stochastic_get_logp name v pv raw =
            .error (.zeroProbability name (some v) pv))
        ∧ (PyMC.d_neg_inf < q →
            PyMC.stochastic_get_logp name v pv raw = .ok q)) := by
  refine ⟨?_, ?_, ?_, ?_⟩
  · rcases raw with _ | x
    · rfl
    · rcases x with _ | q
      · rfl
      · by_cases hq : q ≤ PyMC.d_neg_inf <;>
          simp [PyMC.stochastic_get_logp, PyMC.potential_get_logp,
            PyMC.strip_value, PyMC.erase_value_payload, hq]
  · intro h; subst h; rfl
  · intro h; subst h; rfl
  · intro q h; subst h
    constructor
    · intro hq; simp [PyMC.stochastic_get_logp, hq]
    · intro hq; simp [PyMC.stochastic_get_logp, not_le.mpr hq]

/-- Witness for C3: a raw result exactly at the sentinel raises the
zero-probability error with the node's name, value and parents' values; a
raw result of `0` is returned unchanged. -/
theorem c3_logp_checks_witness :
    PyMC.stochastic_get_logp "X" 5 [1, 2] (.ofFloat (.fin PyMC.d_neg_inf)) =
      .error (.zeroProbability "X" (some 5) [1, 2])
    ∧ PyMC.potential_get_logp "X" [1, 2] (.ofFloat (.fin 0)) = .ok 0 :=
  ⟨((c3_logp_checks "X" 5 [1, 2] (.ofFloat (.fin PyMC.d_neg_inf))).2.2.2
      PyMC.d_neg_inf rfl).1 le_rfl,
   by
    have h := ((c3_logp_checks "X" 5 [1, 2] (.ofFloat (.fin 0))).2.2.2
      0 rfl).2 (by norm_num [PyMC.d_neg_inf])
    have h0 := (c3_logp_checks "X" 5 [1, 2] (.ofFloat (.fin 0))).1
    rw [← h0, h]
    rfl⟩

/-- C7: writing `Stochastic.value` with `isdata` set and no truthy
missing-index list (`_missing` is `None` or the empty list) raises the
data-is-fixed `AttributeError` before `last_value` or `_value` are touched
(the raise at line 597 precedes the `last_value` assignment at line 601, so
the state is unchanged on error); with a nonempty missing-index list only
the missing indices of the stored value are overwritten, observed entries
are preserved, and stored entries at missing indices take the incoming
value's entries. -/
theorem c7_set_value_isdata (s : PyMC.SStoch) (v : List Int)
    (hd : s.isdata = true) :
    ((s.missing = none ∨ s.missing = some []) →
      PyMC.set_value s v = .error .dataFixed)
    ∧ (∀ idxs : List Nat, s.missing = some idxs → idxs ≠ [] →
        PyMC.set_value s v =
          .ok { s with last_value := some s.value,
                       value := PyMC.write_indices s.value v idxs }
        ∧ (∀ j : Nat, j ∉ idxs →
            (PyMC.write_indices s.value v idxs).getD j 0 = s.value.getD j 0)
        ∧ (∀ i ∈ idxs, i < s.value.length → i < v.length →
            (PyMC.write_indices s.value v idxs).getD i 0 = v.getD i 0)) := by
  constructor
  · intro hm
    rcases hm with hm | hm <;> simp [PyMC.set_value, hd, hm]
  · intro idxs hm hne
    refine ⟨by simp [PyMC.set_value, hd, hm, List.isEmpty_iff, hne], ?_, ?_⟩
    · intro j hj; exact PyMC.write_indices_not_mem v idxs s.value j hj
    · intro i hi hbl hvl; exact PyMC.write_indices_mem v idxs s.value i hi hbl hvl

/-- Witness for C7: concrete observed value `[1, 2, 0]` with missing index
2; a full replacement write `[9, 9, 7]` only updates index 2, and a write
with no missing subset fails with the data-is-fixed error. -/
theorem c7_set_value_isdata_witness :
    PyMC.set_value ⟨true, none, [1, 2], none⟩ [5, 6] = .error .dataFixed
    ∧ PyMC.set_value ⟨true, some [2], [1, 2, 0], none⟩ [9, 9, 7] =
        .ok ⟨true, some [2], [1, 2, 7], some [1, 2, 0]⟩
    ∧ (PyMC.write_indices [1, 2, 0] [9, 9, 7] [2]).getD 0 0 = 1 :=
  ⟨(c7_set_value_isdata ⟨true, none, [1, 2], none⟩ [5, 6] rfl).1 (Or.inl rfl),
   ((c7_set_value_isdata ⟨true, some [2], [1, 2, 0], none⟩ [9, 9, 7] rfl).2
      [2] rfl (by decide)).1,
   (((c7_set_value_isdata ⟨true, some [2], [1, 2, 0], none⟩ [9, 9, 7] rfl).2
      [2] rfl (by decide)).2.1 0 (by decide))⟩

/-- C8: with `isdata` unset, a value write saves the current payload into
`last_value` unchanged (the source stores the same object, line 601: "Don't
copy because caching depends on the object's reference"), and `revert`
restores `value` to exactly that pre-write payload; `revert` itself applies
no coercion, validation or `isdata` check (it is the bare assignment
`self._value = self.last_value`). -/
theorem c8_write_revert (s : PyMC.SStoch) (v : List Int)
    (hd : s.isdata = false) :
    PyMC.set_value s v = .ok { s with last_value := some s.value, value := v }
    ∧ PyMC.revert { s with last_value := some s.value, value := v } =
        .ok { s with last_value := some s.value, value := s.value }
    ∧ (∀ t : PyMC.SStoch, ∀ lv : List Int, t.last_value = some lv →
        PyMC.revert t = .ok { t with value := lv }) := by
  refine ⟨by simp [PyMC.set_value, hd], rfl, ?_⟩
  intro t lv hlv
  simp [PyMC.revert, hlv]

/-- Witness for C8: a concrete write-then-revert round trip restores the
pre-write payload `[3, 4]`. -/
theorem c8_write_revert_witness :
    PyMC.set_value ⟨false, none, [3, 4], none⟩ [7, 8] =
      .ok ⟨false, none, [7, 8], some [3, 4]⟩
    ∧ PyMC.revert ⟨false, none, [7, 8], some [3, 4]⟩ =
        .ok ⟨false, none, [3, 4], some [3, 4]⟩ :=
  ⟨(c8_write_revert ⟨false, none, [3, 4], none⟩ [7, 8] rfl).1,
   (c8_write_revert ⟨false, none, [3, 4], none⟩ [7, 8] rfl).2.1⟩

/-- C10: `last_value` is only ever created by `set_value` (line 601); while
it does not exist (`none` in the model), `revert` raises an
`AttributeError` instead of restoring anything, and every successful
`set_value` creates `last_value` holding the pre-write payload. -/
theorem c10_last_value_missing (s : PyMC.SStoch)
    (h : s.last_value = none) :
    PyMC.revert s = .error .attrError
    ∧ (∀ v : List Int, ∀ s2 : PyMC.SStoch,
        PyMC.set_value s v = .ok s2 → s2.last_value = some s.value) := by
  refine ⟨by simp [PyMC.revert, h], ?_⟩
  intro v s2 hs2
  unfold PyMC.set_value at hs2
  split at hs2
  · split at hs2
    · split at hs2
      · exact absurd hs2 (by simp)
      · cases hs2; rfl
    · exact absurd hs2 (by simp)
  · cases hs2; rfl

theorem mem_coparents (w : PyMC.World) (x : Nat) {c : Nat} {r : Ref}
    (hc : c ∈ w.extended_children x) (hr : r ∈ w.extended_parents c) :
    r ∈ PyMC.coparents w x := by
  unfold PyMC.coparents
  exact Finset.mem_insert_of_mem (Finset.mem_biUnion.mpr ⟨c, hc, hr⟩)

/-- C9: in a consistently registered graph (a Stochastic `a` is an
extended parent of a node `b` exactly when `b` is an extended child of
`a`), Markov-blanket membership is symmetric between Stochastic nodes:
`markov_blanket` is `moral_neighbors ∪ {self}` and `moral_neighbors` is
`coparents ∪ extended_parents ∪ extended_children` with `PotentialBase`
members removed, as in the source. -/
theorem c9_markov_blanket_symmetric (g : PyMC.GraphStatic) (w : PyMC.World)
    (A B : Nat) (hA : g.kind A = .stoch) (hB : g.kind B = .stoch)
    (hinv : ∀ a b : Nat, g.kind a = .stoch →
      (Ref.node a ∈ w.extended_parents b ↔ b ∈ w.extended_children a))
    (hmem : Ref.node A ∈ PyMC.markov_blanket g w B) :
    Ref.node B ∈ PyMC.markov_blanket g w A := by
  have hBpot : ¬PyMC.refIsPotential g (Ref.node B) = true := by
    simp [PyMC.refIsPotential, hB]
  have hgoal : Ref.node B ∈ PyMC.coparents w A ∪ w.extended_parents A ∪
      (w.extended_children A).image Ref.node →
      Ref.node B ∈ PyMC.markov_blanket g w A := by
    intro hr
    exact Finset.mem_union_left _ (Finset.mem_filter.mpr ⟨hr, hBpot⟩)
  rcases Finset.mem_union.mp hmem with hmor | hself
  · rcases Finset.mem_filter.mp hmor with ⟨hin, _⟩
    rcases Finset.mem_union.mp hin with hin2 | hecB
    · rcases Finset.mem_union.mp hin2 with hcop | hepB
      · rcases Finset.mem_insert.mp (by exact hcop) with hAB | hbi
        · have hABeq : A = B := Ref.node.inj hAB
          subst hABeq
          exact Finset.mem_union_right _ (Finset.mem_singleton_self _)
        · rcases Finset.mem_biUnion.mp hbi with ⟨c, hcB, hAc⟩
          have hcA : c ∈ w.extended_children A := (hinv A c hA).mp hAc
          have hBc : Ref.node B ∈ w.extended_parents c := (hinv B c hB).mpr hcB
          exact hgoal (Finset.mem_union_left _ (Finset.mem_union_left _
            (mem_coparents w A hcA hBc)))
      · have hBec : B ∈ w.extended_children A := (hinv A B hA).mp hepB
        exact hgoal (Finset.mem_union_right _
          (Finset.mem_image_of_mem Ref.node hBec))
    · have hAecB : A ∈ w.extended_children B := by
        rcases Finset.mem_image.mp hecB with ⟨a, ha, heq⟩
        have haA : a = A := Ref.node.inj heq
        subst haA; exact ha
      have hBA : Ref.node B ∈ w.extended_parents A := (hinv B A hB).mpr hAecB
      exact hgoal (Finset.mem_union_left _ (Finset.mem_union_right _ hBA))
  · have hABeq : A = B := Ref.node.inj (Finset.mem_singleton.mp hself)
    subst hABeq
    exact Finset.mem_union_right _ (Finset.mem_singleton_self _)

/-- Witness for C9: in the two-node graph with 0 an extended parent of 1,
node 0 lies in 1's Markov blanket and, by symmetry, node 1 lies in 0's. -/
theorem c9_markov_blanket_symmetric_witness :
    Ref.node 1 ∈ PyMC.markov_blanket PyMC.gC9 PyMC.wC9 0 :=
  c9_markov_blanket_symmetric PyMC.gC9 PyMC.wC9 0 1 rfl rfl
    (by
      intro a b _
      by_cases hb : b = 1 <;> by_cases ha : a = 0 <;>
        simp [PyMC.wC9, hb, ha])
    (by decide)

/-- Witness for C10: on a freshly constructed state (no successful write
yet), `revert` fails with the attribute error; after a successful write the
attribute exists. -/
theorem c10_last_value_missing_witness :
    PyMC.revert ⟨false, none, [1], none⟩ = .error .attrError
    ∧ PyMC.SStoch.last_value ⟨false, none, [2], some [1]⟩ = some [1] :=
  ⟨(c10_last_value_missing ⟨false, none, [1], none⟩ rfl).1,
   (c10_last_value_missing ⟨false, none, [1], none⟩ rfl).2 [2]
     ⟨false, none, [2], some [1]⟩ rfl⟩

end PyMC
